import Mathlib

/-!
Shallow embedding of `dashboard.py` (repository SMXcoder/personal_debugger).

The embedded parts are:
* JSON values (the payloads read from the Log Store and returned by the
  Gemini HTTP API), with Python dictionary subscripting, `dict.get`,
  truthiness and `str()` conversion;
* the prompt builders and the two AI-call functions
  `_call_gemini_flash_api` / `_call_gemini_pro_api` (lines 141-172), with
  the HTTP world abstracted as an outcome parameter and the `requests`
  library's documented semantics for `raise_for_status` (raises exactly on
  status codes 400-599);
* the directory walk of `run_project_analysis` (lines 115-139) over an
  explicit directory-tree datatype mirroring `os.walk` with top-down
  pruning;
* one step of the polling loop `update_dashboard` (lines 88-108) as a
  state transition, with the filesystem reads and `json.loads` supplied
  as parameters so that every possible world is covered.

Python exceptions are modelled with `Except`; code outside a
`try/except` that can raise is modelled in the `Except` monad, and the
`except` handlers are explicit `match`es on the error case.
-/

namespace PersonalDebugger

/-- JSON values, as produced by `json.loads` and `response.json()`.
Objects are association lists with distinct keys (the Python dict
invariant). -/
inductive JVal : Type where
  | null : JVal
  | bool : Bool → JVal
  | num : Int → JVal
  | str : String → JVal
  | arr : List JVal → JVal
  | obj : List (String × JVal) → JVal

/-- First-match association-list lookup (Python dict lookup; keys are
distinct in a dict, so first-match agrees with the dict). -/
def alookup (fs : List (String × JVal)) (k : String) : Option JVal :=
  match fs with
  | [] => none
  | (k2, v) :: rest => if k2 = k then some v else alookup rest k

/-- Python truthiness of a JSON value (`bool(v)`). -/
def truthy : JVal → Bool
  | .null => false
  | .bool b => b
  | .num n => decide (n ≠ 0)
  | .str s => decide (s ≠ "")
  | .arr xs => !xs.isEmpty
  | .obj fs => !fs.isEmpty

/-- Python exceptions that the embedded code can raise. -/
inductive PyErr : Type where
  | keyError : String → PyErr
  | typeError : PyErr
  | attributeError : PyErr
  | indexError : PyErr
  | httpError : Nat → PyErr
  | connectionError : String → PyErr
  | jsonDecodeError : PyErr
  | osError : PyErr
deriving DecidableEq

/-- Quote used by Python `repr` of a string (escaping of characters
inside the string is abstracted; no claim depends on it). -/
def pyQuote (s : String) : String := "\x27" ++ s ++ "\x27"

mutual

/-- Python `repr` of a JSON value (used by `str()` inside containers). -/
def pyRepr : JVal → String
  | .null => "None"
  | .bool true => "True"
  | .bool false => "False"
  | .num n => toString n
  | .str s => pyQuote s
  | .arr xs => "[" ++ pyReprList xs ++ "]"
  | .obj fs => "\x7b" ++ pyReprFields fs ++ "\x7d"

/-- Comma-separated `repr`s of list elements. -/
def pyReprList : List JVal → String
  | [] => ""
  | [x] => pyRepr x
  | x :: y :: r => pyRepr x ++ ", " ++ pyReprList (y :: r)

/-- Comma-separated `repr`s of dict entries. -/
def pyReprFields : List (String × JVal) → String
  | [] => ""
  | [(k, v)] => pyQuote k ++ ": " ++ pyRepr v
  | (k, v) :: e :: r => pyQuote k ++ ": " ++ pyRepr v ++ ", " ++ pyReprFields (e :: r)

end

/-- Python `str()` of a JSON value, as used by f-string interpolation. -/
def pyStr : JVal → String
  | .str s => s
  | v => pyRepr v

/-- Python `str.strip()` whitespace test (the characters stripped by
`strip()` with no argument). -/
def pyIsSpace (c : Char) : Bool :=
  c = ' ' || c = '\t' || c = '\n' || c = '\r' || c = '\x0b' || c = '\x0c'

/-- Python `content.strip()`: drop leading and trailing whitespace. -/
def pyStrip (s : String) : String :=
  ⟨(((s.data.dropWhile pyIsSpace).reverse).dropWhile pyIsSpace).reverse⟩

/-- `needle` occurs as a contiguous substring of `hay`. -/
def containsSub (hay needle : String) : Prop :=
  needle.data <:+: hay.data

instance (hay needle : String) : Decidable (containsSub hay needle) := by
  unfold containsSub
  exact List.decidableInfix needle.data hay.data

/-- Number of (possibly overlapping) occurrences of `needle` in a
character list. -/
def countOcc (needle : List Char) : List Char → Nat
  | [] => 0
  | c :: t => (if needle.isPrefixOf (c :: t) then 1 else 0) + countOcc needle t

/-! ## The AI client (`_call_gemini_flash_api`, lines 141-154, and
`_call_gemini_pro_api`, lines 156-172)

The HTTP world is a parameter: either `requests.post` itself raises, or
it yields a response with a status code and a `.json()` result (whose
error case models a body that is not valid JSON). -/

/-- Outcome of the `requests.post` call made by the AI-call functions. -/
inductive HttpOutcome : Type where
  | raises : PyErr → HttpOutcome
  | response : Nat → Except PyErr JVal → HttpOutcome

/-- `str(e)` for a Python exception. The interpreter's exact message
text is abstracted; only the fact that it is some string matters to the
claims. -/
def pyErrStr : PyErr → String
  | .keyError k => pyQuote k
  | .typeError => "TypeError"
  | .attributeError => "AttributeError"
  | .indexError => "list index out of range"
  | .httpError s => toString s ++ " Error for url"
  | .connectionError m => m
  | .jsonDecodeError => "Expecting value: line 1 column 1 (char 0)"
  | .osError => "OSError"

/-- `requests.Response.raise_for_status()`: per the `requests` library,
raises `HTTPError` exactly when the status code is in 400-599. -/
def raiseForStatus (status : Nat) : Except PyErr Unit :=
  if 400 ≤ status ∧ status < 600 then .error (.httpError status) else .ok ()

/-- Python subscript `v[k]` with a string key: `KeyError` when the key
is missing from a dict, `TypeError` on a non-dict. -/
def getItem (v : JVal) (k : String) : Except PyErr JVal :=
  match v with
  | .obj fs =>
    match alookup fs k with
    | some x => .ok x
    | none => .error (.keyError k)
  | _ => .error .typeError

/-- Python subscript `v[i]` with an integer index on the JSON value. -/
def getIdx (v : JVal) (i : Nat) : Except PyErr JVal :=
  match v with
  | .arr xs =>
    match xs[i]? with
    | some x => .ok x
    | none => .error .indexError
  | _ => .error .typeError

/-- `response.json()['candidates'][0]['content']['parts'][0]['text'].strip()`:
the extraction chain on the parsed response body (lines 152 and 170).
`.strip()` on a non-string raises `AttributeError`. -/
def extractText (v : JVal) : Except PyErr String := do
  let c ← getItem v "candidates"
  let c0 ← getIdx c 0
  let ct ← getItem c0 "content"
  let p ← getItem ct "parts"
  let p0 ← getIdx p 0
  let t ← getItem p0 "text"
  match t with
  | .str s => .ok (pyStrip s)
  | _ => .error .attributeError

/-- The body of the `try:` block shared by both AI-call functions
(lines 150-152 and 168-170): the POST, `raise_for_status`, `.json()`
and the extraction chain, any of which can raise. -/
def tryBlock (out : HttpOutcome) : Except PyErr String := do
  match out with
  | .raises e => .error e
  | .response status body => do
    raiseForStatus status
    let j ← body
    extractText j

/-- Fixed part of the `dsa` prompt before the source code (line 144). -/
def dsaPre : String :=
  "You are a Socratic tutor... DO NOT provide corrected code.\n\nCODE:```"

/-- Fixed part of both single-file prompts between code and stderr. -/
def dsaMid : String := "```\n\nERROR:```"

/-- Fixed part of the `dsa` prompt after the stderr (line 144). -/
def dsaSuf : String := "```\n\nProvide a short, helpful hint:"

/-- Fixed part of the `general` prompt before the source code (line 146). -/
def genPre : String :=
  "You are an expert developer... explain the bug and provide corrected code.\n\nCODE:```"

/-- Fixed part of the `general` prompt between code and stderr. -/
def genMid : String := "```\n\nERROR:```"

/-- Fixed part of the `general` prompt after the stderr (line 146). -/
def genSuf : String := "```\n\nProvide your analysis and corrected code:"

/-- The single-file prompt template (lines 143-146): `dsa` mode gets the
Socratic-tutor prompt, every other mode falls into the `else` branch and
gets the general prompt. -/
def buildFlashPrompt (src stderr mode : String) : String :=
  if mode = "dsa" then dsaPre ++ src ++ dsaMid ++ stderr ++ dsaSuf
  else genPre ++ src ++ genMid ++ stderr ++ genSuf

/-- Prompt construction of `_call_gemini_flash_api` (lines 143-146).
It happens before the `try:` block, and the f-strings subscript
`data['source_code']` and then `data['stderr']`, so a missing key
raises `KeyError` out of the function. -/
def flashPromptE (data : JVal) (mode : String) : Except PyErr String :=
  match getItem data "source_code" with
  | .error e => .error e
  | .ok src =>
    match getItem data "stderr" with
    | .error e => .error e
    | .ok err => .ok (buildFlashPrompt (pyStr src) (pyStr err) mode)

/-- Head of the error message returned by the flash handler (line 154). -/
def flashFailHead : String := "### Google Gemini (Flash) API Request Failed\n\n```\n"

/-- Head of the error message returned by the pro handler (line 172). -/
def proFailHead : String := "### Google Gemini (Pro) API Request Failed\n\n```\n"

/-- Closing code fence of both error messages. -/
def fenceTail : String := "\n```"

/-- The failure marker of the AI-call error messages. -/
def failMarker : String := "API Request Failed"

/-- `_call_gemini_flash_api` (lines 141-154): prompt construction (can
raise `KeyError`/`TypeError`), then the `try/except` around the HTTP
call, whose handler returns the failure message string. -/
def callGeminiFlash (data : JVal) (mode : String) (out : HttpOutcome) :
    Except PyErr String :=
  match flashPromptE data mode with
  | .error e => .error e
  | .ok _prompt =>
    .ok (match tryBlock out with
      | .ok s => s
      | .error e => flashFailHead ++ pyErrStr e ++ fenceTail)

/-- Python `d.get(k)`: `None` when missing; `AttributeError` when the
receiver is not a dict. -/
def pyGet (v : JVal) (k : String) : Except PyErr JVal :=
  match v with
  | .obj fs => .ok ((alookup fs k).getD .null)
  | _ => .error .attributeError

/-- Fixed part of the pro prompt before the file path (lines 158-160). -/
def proPre : String :=
  "You are a senior software architect. Analyze the full project context to find the root cause of an error, which may be in a different file than where the error appeared. Provide a deep analysis of file interactions and a solution.\n\nTHE INITIAL ERROR (in \x27"

/-- Fixed part of the pro prompt between file path and stderr. -/
def proMid : String := "\x27):\n```"

/-- Fixed part of the pro prompt between stderr and project context. -/
def proMid2 : String := "```\n\nTHE FULL PROJECT CONTEXT:\n"

/-- `_call_gemini_pro_api` (lines 156-172): the prompt f-string calls
`error_data.get(...)` (lines 160-161) before the `try:` block, then the
`try/except` around the HTTP call. -/
def callGeminiPro (errorData : JVal) (projectContext : String)
    (out : HttpOutcome) : Except PyErr String :=
  match pyGet errorData "file_path" with
  | .error e => .error e
  | .ok fp =>
    match pyGet errorData "stderr" with
    | .error e => .error e
    | .ok se =>
      let _prompt := proPre ++ pyStr fp ++ proMid ++ pyStr se ++ proMid2 ++ projectContext
      .ok (match tryBlock out with
        | .ok s => s
        | .error e => proFailHead ++ pyErrStr e ++ fenceTail)

/-- A response body of the successful shape
`{"candidates":[{"content":{"parts":[{"text": t}]}}]}`. -/
def goodResp (t : String) : JVal :=
  .obj [("candidates", .arr [.obj [("content",
    .obj [("parts", .arr [.obj [("text", .str t)]])])]])]

/-! ## The project walk of `run_project_analysis` (lines 115-139)

The directory tree rooted at `os.path.dirname(file_path)` is an explicit
datatype: each directory has a name, a list of files (name together with
`some content`, or `none` for a file whose `open`/`read` raises), and a
list of subdirectories. `os.walk` is top-down depth-first; the
`dirs[:] = [d for d in dirs if d not in ignore_dirs]` pruning means a
directory whose name is in the ignore set is never entered. -/

mutual

/-- A directory: name, files (content `none` models an unreadable file),
subdirectories. -/
inductive DirTree : Type where
  | node : String → List (String × Option String) → DirForest → DirTree

/-- A list of sibling directories. -/
inductive DirForest : Type where
  | nil : DirForest
  | cons : DirTree → DirForest → DirForest

end

/-- The name of a directory. -/
def DirTree.dname : DirTree → String
  | .node n _ _ => n

/-- `ignore_dirs` (line 123). -/
def ignoreDirs : List String := [".git", "node_modules", "__pycache__", ".vscode", "venv"]

/-- Accumulator of the walk: `project_context` and `file_count`
(line 122). -/
structure WalkSt : Type where
  ctx : String
  count : Nat

/-- `os.path.join` / `os.path.relpath` on the relative paths used in the
file headers: the project root itself is the empty relative path. -/
def pyJoin (rel name : String) : String :=
  if rel = "" then name else rel ++ "/" ++ name

/-- The block appended to `project_context` for one readable file
(line 132). -/
def fileBlock (relPath content : String) : String :=
  "--- File: " ++ relPath ++ " ---\n" ++ content ++ "\n\n"

/-- The inner `for file in files:` loop (lines 127-134): stop at a count
of 20, skip a file whose read raises (`except Exception: continue`,
without incrementing the count), otherwise append its block and
increment. -/
def procFiles (rel : String) (st : WalkSt) :
    List (String × Option String) → WalkSt
  | [] => st
  | (name, c) :: rest =>
    if 20 ≤ st.count then st
    else
      match c with
      | none => procFiles rel st rest
      | some content =>
        procFiles rel ⟨st.ctx ++ fileBlock (pyJoin rel name) content, st.count + 1⟩ rest

mutual

/-- The `os.walk` loop body for one directory (lines 125-135): process
its files, then — unless the 20-file cap has been reached, which breaks
the walk — its subdirectories, with the ignore-set pruning of line 126
applied in `walkForest`. -/
def walkTree (rel : String) (st : WalkSt) : DirTree → WalkSt
  | .node _ files subs =>
    if 20 ≤ (procFiles rel st files).count then procFiles rel st files
    else walkForest rel (procFiles rel st files) subs

/-- Walk a list of sibling directories in order, skipping those whose
name is in `ignore_dirs`. -/
def walkForest (rel : String) (st : WalkSt) : DirForest → WalkSt
  | .nil => st
  | .cons d ds =>
    if ignoreDirs.contains d.dname then walkForest rel st ds
    else walkForest rel (walkTree (pyJoin rel d.dname) st d) ds

end

mutual

/-- Remove every subdirectory named `node_modules` or `.git`, at every
depth (the tree the walk would see if those directories did not exist). -/
def deepPruneT : DirTree → DirTree
  | .node n files subs => .node n files (deepPruneF subs)

/-- Forest version of `deepPruneT`. -/
def deepPruneF : DirForest → DirForest
  | .nil => .nil
  | .cons d ds =>
    if d.dname = "node_modules" ∨ d.dname = ".git" then deepPruneF ds
    else .cons (deepPruneT d) (deepPruneF ds)

end

mutual

/-- Remove every unreadable file (content `none`), at every depth. -/
def dropUnreadT : DirTree → DirTree
  | .node n files subs =>
    .node n (files.filter fun f => f.2.isSome) (dropUnreadF subs)

/-- Forest version of `dropUnreadT`. -/
def dropUnreadF : DirForest → DirForest
  | .nil => .nil
  | .cons d ds => .cons (dropUnreadT d) (dropUnreadF ds)

end

/-- Concatenation of file blocks, one per concatenated file. -/
def blocksStr : List (String × String) → String
  | [] => ""
  | b :: r => fileBlock b.1 b.2 ++ blocksStr r

/-- The message shown when the guard of `run_project_analysis` fails
(line 117). -/
def noContextMsg : String :=
  "<h1>No file context. Run the \x27explain\x27 command on a file first.</h1>"

/-- Observable outcome of `run_project_analysis`: either the guard
failed and only the no-context message is shown, or the walk ran and
the pro API was called. -/
inductive ProjOutcome : Type where
  | noContext : String → ProjOutcome
  | analyzed : WalkSt → Except PyErr String → ProjOutcome

/-- `run_project_analysis` (lines 115-139). `root` is the directory
tree at `os.path.dirname(last_error_data['file_path'])`; `out` is the
HTTP world of the pro call. The guard
`if not self.last_error_data or not self.last_error_data.get('file_path')`
is line 116. -/
def runProjectAnalysis (lastErrorData : Option JVal) (root : DirTree)
    (out : HttpOutcome) : Except PyErr ProjOutcome :=
  match lastErrorData with
  | none => .ok (.noContext noContextMsg)
  | some d =>
    if truthy d = false then .ok (.noContext noContextMsg)
    else
      match pyGet d "file_path" with
      | .error e => .error e
      | .ok fp =>
        if truthy fp = false then .ok (.noContext noContextMsg)
        else
          let st := walkTree "" ⟨"", 0⟩ root
          .ok (.analyzed st (callGeminiPro d st.ctx out))

/-! ## One step of the polling loop `update_dashboard` (lines 88-108)

The watcher state is the pair of instance fields the loop mutates; the
filesystem reads (`os.path.getmtime`, `open`/`read`) and `json.loads`
are supplied as parameters. The whole body is wrapped in
`try: ... except Exception: pass`, and the assignment
`self.last_mtime = current_mtime` (line 92) happens before the read and
the parse, so an exception after it leaves the timestamp updated. The
unconditional `self.after(2000, ...)` rescheduling is outside the model
of a single step. -/

/-- The mutable watcher fields `last_mtime` and `last_error_data`
(lines 79-80). -/
structure WatchState : Type where
  lastMtime : Int
  lastErrorData : Option JVal

/-- The filesystem's answers for one poll: the `os.path.getmtime`
result and the `open`/`read` result. -/
structure PollInput : Type where
  mtimeRes : Except PyErr Int
  contentRes : Except PyErr String

/-- What one poll step dispatches (the thread started and the
placeholder shown), or nothing. -/
inductive DispatchAction : Type where
  | idle : DispatchAction
  | project : String → DispatchAction
  | singleFile : JVal → String → String → DispatchAction

/-- Placeholder shown before a project analysis (line 101). -/
def developerPlaceholder : String :=
  "<h1>Project context analysis triggered...</h1><p>Running deep analysis with Gemini Pro. This may take a moment.</p>"

/-- Placeholder shown before a single-file analysis (line 104). -/
def analyzingPlaceholder : String := "<h1>Analyzing error...</h1>"

/-- The body of the `try:` block of `update_dashboard` (lines 90-105),
threading the state so that the `except` handler sees the fields as
already mutated. -/
def updateBody (parse : String → Except PyErr JVal) (mode : String)
    (st : WatchState) (inp : PollInput) :
    Except (PyErr × WatchState) (WatchState × DispatchAction) :=
  match inp.mtimeRes with
  | .error e => .error (e, st)
  | .ok m =>
    if m = st.lastMtime then .ok (st, .idle)
    else
      let st1 : WatchState := { st with lastMtime := m }
      match inp.contentRes with
      | .error e => .error (e, st1)
      | .ok content =>
        if pyStrip content = "" then .ok (st1, .idle)
        else
          match parse content with
          | .error e => .error (e, st1)
          | .ok d =>
            let st2 : WatchState := { st1 with lastErrorData := some d }
            if mode = "developer" then .ok (st2, .project developerPlaceholder)
            else .ok (st2, .singleFile d mode analyzingPlaceholder)

/-- One step of `update_dashboard` (lines 88-107): the `except
Exception: pass` handler discards the exception and dispatches
nothing. -/
def updateStep (parse : String → Except PyErr JVal) (mode : String)
    (st : WatchState) (inp : PollInput) : WatchState × DispatchAction :=
  match updateBody parse mode st inp with
  | .ok r => r
  | .error (_, st1) => (st1, .idle)

/-- A concrete stand-in for `json.loads` used by witnesses: parses one
fixed good document and fails on everything else. -/
def parseSample : String → Except PyErr JVal := fun s =>
  if s = "ok" then .ok (.obj [("stderr", .str "E")]) else .error .jsonDecodeError

/-! ## Helper lemmas -/

theorem string_data_append (a b : String) : (a ++ b).data = a.data ++ b.data := by
  cases a
  cases b
  rfl

theorem containsSub_appendR {a needle : String} (h : containsSub a needle) (b : String) :
    containsSub (a ++ b) needle := by
  obtain ⟨s, t, hst⟩ := h
  exact ⟨s, t ++ b.data, by rw [string_data_append, ← hst]; simp⟩

theorem containsSub_appendL {a needle : String} (h : containsSub a needle) (b : String) :
    containsSub (b ++ a) needle := by
  obtain ⟨s, t, hst⟩ := h
  exact ⟨b.data ++ s, t, by rw [string_data_append, ← hst]; simp⟩

theorem containsSub_self (a : String) : containsSub a a :=
  ⟨[], [], by simp⟩

theorem string_append_empty (s : String) : s ++ "" = s := by
  cases s with
  | mk l => exact congrArg String.mk (List.append_nil l)

theorem string_append_assoc (a b c : String) : a ++ b ++ c = a ++ (b ++ c) := by
  cases a
  cases b
  cases c
  exact congrArg String.mk (List.append_assoc _ _ _)

theorem getItem_ok_obj {data : JVal} {k : String} {v : JVal}
    (h : getItem data k = .ok v) : ∃ fs, data = .obj fs := by
  cases data
  case obj fs => exact ⟨fs, rfl⟩
  all_goals simp [getItem] at h

theorem getItem_obj_some {fs : List (String × JVal)} {k : String} {v : JVal}
    (h : alookup fs k = some v) : getItem (.obj fs) k = .ok v := by
  simp [getItem, h]

/-! ## Claim theorems -/

/-- Claim C7: for every error report with string fields `source_code`
and `stderr`, the prompt built in `general` mode contains both the
literal stderr text and the literal source code text as substrings. -/
theorem claim_C7 (fs : List (String × JVal)) (s e : String)
    (hs : alookup fs "source_code" = some (.str s))
    (he : alookup fs "stderr" = some (.str e)) :
    flashPromptE (.obj fs) "general" = .ok (genPre ++ s ++ genMid ++ e ++ genSuf) ∧
    containsSub (genPre ++ s ++ genMid ++ e ++ genSuf) s ∧
    containsSub (genPre ++ s ++ genMid ++ e ++ genSuf) e := by
  refine ⟨?_, ?_, ?_⟩
  · unfold flashPromptE
    rw [getItem_obj_some hs, getItem_obj_some he]
    rfl
  · exact containsSub_appendR (containsSub_appendR (containsSub_appendR
      (containsSub_appendL (containsSub_self s) genPre) genMid) e) genSuf
  · exact containsSub_appendR
      (containsSub_appendL (containsSub_self e) (genPre ++ s ++ genMid)) genSuf

/-- Witness for claim C7 at a concrete report. -/
theorem claim_C7_witness :
    alookup [("source_code", JVal.str "print(x)"), ("stderr", JVal.str "NameError")]
      "source_code" = some (.str "print(x)") ∧
    alookup [("source_code", JVal.str "print(x)"), ("stderr", JVal.str "NameError")]
      "stderr" = some (.str "NameError") ∧
    (flashPromptE (.obj [("source_code", JVal.str "print(x)"), ("stderr", JVal.str "NameError")])
        "general" =
      .ok (genPre ++ "print(x)" ++ genMid ++ "NameError" ++ genSuf) ∧
    containsSub (genPre ++ "print(x)" ++ genMid ++ "NameError" ++ genSuf) "print(x)" ∧
    containsSub (genPre ++ "print(x)" ++ genMid ++ "NameError" ++ genSuf) "NameError") :=
  ⟨rfl, rfl, claim_C7 _ "print(x)" "NameError" rfl rfl⟩

/-- Claim C8: the single-file prompt builder is pure and deterministic:
it is a function in the embedding, and its result depends only on the
`source_code` and `stderr` fields read from the report together with
the mode, so two reports whose reads agree yield the same prompt
string. -/
theorem claim_C8 (d1 d2 : JVal) (mode : String)
    (h1 : getItem d1 "source_code" = getItem d2 "source_code")
    (h2 : getItem d1 "stderr" = getItem d2 "stderr") :
    flashPromptE d1 mode = flashPromptE d2 mode := by
  unfold flashPromptE
  rw [h1, h2]

/-- Witness for claim C8: two syntactically different reports with the
same field reads get the same prompt. -/
theorem claim_C8_witness :
    getItem (JVal.obj [("source_code", JVal.str "a"), ("stderr", JVal.str "b")]) "source_code" =
      getItem (JVal.obj [("stderr", JVal.str "b"), ("source_code", JVal.str "a"), ("extra", JVal.null)]) "source_code" ∧
    getItem (JVal.obj [("source_code", JVal.str "a"), ("stderr", JVal.str "b")]) "stderr" =
      getItem (JVal.obj [("stderr", JVal.str "b"), ("source_code", JVal.str "a"), ("extra", JVal.null)]) "stderr" ∧
    flashPromptE (JVal.obj [("source_code", JVal.str "a"), ("stderr", JVal.str "b")]) "dsa" =
      flashPromptE (JVal.obj [("stderr", JVal.str "b"), ("source_code", JVal.str "a"), ("extra", JVal.null)]) "dsa" :=
  ⟨rfl, rfl, claim_C8 _ _ "dsa" rfl rfl⟩

set_option maxRecDepth 16384 in
/-- Claim C3: the prompt of `dsa` mode never contains an instruction to
provide corrected code while the `general` prompt always requests it.
Formalisation: the instructions are the fixed template segments (the
variable segments are the quoted report fields, not instructions). In
the concatenated fixed segments of the `dsa` template the phrase
"corrected code" occurs exactly once, and the phrase "DO NOT provide
corrected code" — which contains it — also occurs exactly once, so the
sole mention of corrected code is the prohibition; the fixed segments
of the `general` template contain "provide corrected code" and no
"DO NOT", and every `general` prompt therefore contains the request. -/
theorem claim_C3 :
    (∀ src err : String,
      buildFlashPrompt src err "dsa" = dsaPre ++ src ++ dsaMid ++ err ++ dsaSuf) ∧
    (∀ (src err mode : String), mode ≠ "dsa" →
      buildFlashPrompt src err mode = genPre ++ src ++ genMid ++ err ++ genSuf) ∧
    countOcc "corrected code".data (dsaPre ++ dsaMid ++ dsaSuf).data = 1 ∧
    countOcc "DO NOT provide corrected code".data (dsaPre ++ dsaMid ++ dsaSuf).data = 1 ∧
    containsSub "DO NOT provide corrected code" "corrected code" ∧
    containsSub dsaPre "DO NOT provide corrected code" ∧
    countOcc "DO NOT".data (genPre ++ genMid ++ genSuf).data = 0 ∧
    countOcc "corrected code".data (genPre ++ genMid ++ genSuf).data = 2 ∧
    (∀ src err : String,
      containsSub (buildFlashPrompt src err "general") "provide corrected code") := by
  refine ⟨?_, ?_, by decide, by decide, by decide, by decide, by decide, by decide, ?_⟩
  · intro src err
    unfold buildFlashPrompt
    rw [if_pos rfl]
  · intro src err mode h
    unfold buildFlashPrompt
    rw [if_neg h]
  · intro src err
    have hb : buildFlashPrompt src err "general" =
        genPre ++ src ++ genMid ++ err ++ genSuf := by
      unfold buildFlashPrompt
      rw [if_neg (by decide)]
    rw [hb]
    exact containsSub_appendR (containsSub_appendR (containsSub_appendR
      (containsSub_appendR (by decide) src) genMid) err) genSuf

/-- Witness for claim C3 at a concrete report and mode. -/
theorem claim_C3_witness :
    ("general" ≠ "dsa") ∧
    buildFlashPrompt "print(x)" "NameError" "general" =
      genPre ++ "print(x)" ++ genMid ++ "NameError" ++ genSuf :=
  ⟨by decide, claim_C3.2.1 "print(x)" "NameError" "general" (by decide)⟩

/-- Claim C5: the single-file prompt construction happens before the
fail-soft `try/except`, so `_call_gemini_flash_api` returns a string
(never raises) exactly when the report dictionary has both the
`source_code` and `stderr` keys; when either is missing the subscript
raises `KeyError` and no error-message string is produced. -/
theorem claim_C5 :
    (∀ (fs : List (String × JVal)) (mode : String) (out : HttpOutcome),
      alookup fs "source_code" = none →
      callGeminiFlash (.obj fs) mode out = .error (.keyError "source_code")) ∧
    (∀ (fs : List (String × JVal)) (v : JVal) (mode : String) (out : HttpOutcome),
      alookup fs "source_code" = some v → alookup fs "stderr" = none →
      callGeminiFlash (.obj fs) mode out = .error (.keyError "stderr")) ∧
    (∀ (fs : List (String × JVal)) (v w : JVal) (mode : String) (out : HttpOutcome),
      alookup fs "source_code" = some v → alookup fs "stderr" = some w →
      ∃ s, callGeminiFlash (.obj fs) mode out = .ok s) := by
  refine ⟨?_, ?_, ?_⟩
  · intro fs mode out h
    unfold callGeminiFlash flashPromptE
    rw [show getItem (.obj fs) "source_code" = .error (.keyError "source_code") by
      simp [getItem, h]]
  · intro fs v mode out hs he
    unfold callGeminiFlash flashPromptE
    rw [getItem_obj_some hs,
      show getItem (.obj fs) "stderr" = .error (.keyError "stderr") by
        simp [getItem, he]]
  · intro fs v w mode out hs he
    unfold callGeminiFlash flashPromptE
    rw [getItem_obj_some hs, getItem_obj_some he]
    exact ⟨_, rfl⟩

/-- Witness for claim C5: a report missing `source_code` raises
`KeyError`; a full report returns a string. -/
theorem claim_C5_witness :
    alookup [("stderr", JVal.str "E")] "source_code" = none ∧
    callGeminiFlash (.obj [("stderr", JVal.str "E")]) "general" (.raises .osError) =
      .error (.keyError "source_code") :=
  ⟨rfl, claim_C5.1 [("stderr", JVal.str "E")] "general" (.raises .osError) rfl⟩

/-- Claim C6: on a successful call (2xx status) whose JSON body has the
shape with `candidates[0].content.parts[0].text`, both AI-call
functions return exactly that text with surrounding whitespace
stripped. -/
theorem claim_C6 (data : JVal) (v w : JVal) (mode ctx : String) (status : Nat)
    (t : String) (ed : List (String × JVal))
    (hs : getItem data "source_code" = .ok v)
    (he : getItem data "stderr" = .ok w)
    (h2 : 200 ≤ status) (h3 : status < 300) :
    callGeminiFlash data mode (.response status (.ok (goodResp t))) = .ok (pyStrip t) ∧
    callGeminiPro (.obj ed) ctx (.response status (.ok (goodResp t))) = .ok (pyStrip t) := by
  have hrs : raiseForStatus status = .ok () := by
    unfold raiseForStatus
    rw [if_neg]
    omega
  have htb : tryBlock (.response status (.ok (goodResp t))) = .ok (pyStrip t) := by
    simp only [tryBlock]
    rw [hrs]
    rfl
  constructor
  · unfold callGeminiFlash flashPromptE
    rw [hs, he, htb]
  · unfold callGeminiPro
    rw [htb]
    rfl

/-- Witness for claim C6 at a concrete report, status and body. -/
theorem claim_C6_witness :
    getItem (JVal.obj [("source_code", JVal.str "print(x)"), ("stderr", JVal.str "NameError")])
      "source_code" = .ok (.str "print(x)") ∧
    getItem (JVal.obj [("source_code", JVal.str "print(x)"), ("stderr", JVal.str "NameError")])
      "stderr" = .ok (.str "NameError") ∧
    200 ≤ 200 ∧ 200 < 300 ∧
    (callGeminiFlash (JVal.obj [("source_code", JVal.str "print(x)"), ("stderr", JVal.str "NameError")])
        "general" (.response 200 (.ok (goodResp " Fix: define x "))) =
      .ok (pyStrip " Fix: define x ") ∧
    callGeminiPro (.obj [("file_path", JVal.str "/tmp/a.py")]) ""
        (.response 200 (.ok (goodResp " Fix: define x "))) =
      .ok (pyStrip " Fix: define x ")) :=
  ⟨rfl, rfl, by decide, by decide,
    claim_C6 _ _ _ "general" "" 200 " Fix: define x " [("file_path", JVal.str "/tmp/a.py")]
      rfl rfl (by decide) (by decide)⟩

/-- Counterexample to claim C1 as stated: a non-2xx status is not
always converted into a failure message. `requests`'
`raise_for_status` raises only for 4xx/5xx, so a 301 response carrying
a well-shaped JSON body makes `_call_gemini_flash_api` return the
extracted text, which does not contain the marker. -/
theorem claim_C1_counterexample :
    callGeminiFlash
        (.obj [("source_code", JVal.str "print(x)"), ("stderr", JVal.str "NameError")])
        "general" (.response 301 (.ok (goodResp "Fix: define x"))) =
      .ok "Fix: define x" ∧
    ¬ containsSub "Fix: define x" failMarker ∧
    ¬ (200 ≤ 301 ∧ 301 < 300) :=
  ⟨rfl, by decide, by decide⟩

/-- Claim C1 (amended): for every report with the `source_code` and
`stderr` keys, the AI-call functions return a string and never raise;
whenever the `try:` body fails — which it does on a network error, on a
4xx/5xx status (the statuses for which `raise_for_status` raises) and
on a malformed response body or shape — the returned string contains
the marker "API Request Failed". -/
theorem claim_C1_amended (data : JVal) (v w : JVal) (mode ctx : String)
    (out : HttpOutcome)
    (hs : getItem data "source_code" = .ok v)
    (he : getItem data "stderr" = .ok w) :
    (∃ s, callGeminiFlash data mode out = .ok s ∧
      ∀ e, tryBlock out = .error e → containsSub s failMarker) ∧
    (∃ s, callGeminiPro data ctx out = .ok s ∧
      ∀ e, tryBlock out = .error e → containsSub s failMarker) ∧
    (∀ e, out = .raises e → ∃ e2, tryBlock out = .error e2) ∧
    (∀ (status : Nat) (body : Except PyErr JVal), out = .response status body →
      400 ≤ status → status < 600 → ∃ e2, tryBlock out = .error e2) ∧
    (∀ (status : Nat) (e : PyErr), out = .response status (.error e) →
      ∃ e2, tryBlock out = .error e2) := by
  obtain ⟨fs, rfl⟩ := getItem_ok_obj hs
  refine ⟨?_, ?_, ?_, ?_, ?_⟩
  · unfold callGeminiFlash flashPromptE
    rw [hs, he]
    cases htb : tryBlock out with
    | ok s0 =>
      refine ⟨s0, rfl, fun e he2 => ?_⟩
      cases he2
    | error e0 =>
      refine ⟨flashFailHead ++ pyErrStr e0 ++ fenceTail, rfl, fun e he2 => ?_⟩
      exact containsSub_appendR (containsSub_appendR (by decide) (pyErrStr e0)) fenceTail
  · have hred : callGeminiPro (.obj fs) ctx out =
        .ok (match tryBlock out with
          | .ok s => s
          | .error e => proFailHead ++ pyErrStr e ++ fenceTail) := rfl
    cases htb : tryBlock out with
    | ok s0 =>
      refine ⟨s0, by rw [hred, htb], fun e he2 => ?_⟩
      cases he2
    | error e0 =>
      refine ⟨proFailHead ++ pyErrStr e0 ++ fenceTail, by rw [hred, htb], fun e he2 => ?_⟩
      exact containsSub_appendR (containsSub_appendR (by decide) (pyErrStr e0)) fenceTail
  · intro e h
    subst h
    exact ⟨e, rfl⟩
  · intro status body h h4 h5
    subst h
    refine ⟨.httpError status, ?_⟩
    have hrs : raiseForStatus status = .error (.httpError status) := by
      unfold raiseForStatus
      rw [if_pos ⟨h4, h5⟩]
    simp only [tryBlock]
    rw [hrs]
    rfl
  · intro status e h
    subst h
    by_cases hc : 400 ≤ status ∧ status < 600
    · refine ⟨.httpError status, ?_⟩
      have hrs : raiseForStatus status = .error (.httpError status) := by
        unfold raiseForStatus
        rw [if_pos hc]
      simp only [tryBlock]
      rw [hrs]
      rfl
    · refine ⟨e, ?_⟩
      have hrs : raiseForStatus status = .ok () := by
        unfold raiseForStatus
        rw [if_neg hc]
      simp only [tryBlock]
      rw [hrs]
      rfl

/-- Witness for the amended claim C1 at a concrete report and a
concrete 500 response. -/
theorem claim_C1_amended_witness :
    getItem (JVal.obj [("source_code", JVal.str "print(x)"), ("stderr", JVal.str "NameError")])
      "source_code" = .ok (.str "print(x)") ∧
    getItem (JVal.obj [("source_code", JVal.str "print(x)"), ("stderr", JVal.str "NameError")])
      "stderr" = .ok (.str "NameError") ∧
    ((∃ s, callGeminiFlash
        (JVal.obj [("source_code", JVal.str "print(x)"), ("stderr", JVal.str "NameError")])
        "general" (.response 500 (.error .jsonDecodeError)) = .ok s ∧
      ∀ e, tryBlock (.response 500 (.error .jsonDecodeError)) = .error e →
        containsSub s failMarker) ∧
    (∃ s, callGeminiPro
        (JVal.obj [("source_code", JVal.str "print(x)"), ("stderr", JVal.str "NameError")])
        "" (.response 500 (.error .jsonDecodeError)) = .ok s ∧
      ∀ e, tryBlock (.response 500 (.error .jsonDecodeError)) = .error e →
        containsSub s failMarker) ∧
    (∀ e, (HttpOutcome.response 500 (.error .jsonDecodeError)) = .raises e →
      ∃ e2, tryBlock (.response 500 (.error .jsonDecodeError)) = .error e2) ∧
    (∀ (status : Nat) (body : Except PyErr JVal),
      (HttpOutcome.response 500 (.error .jsonDecodeError)) = .response status body →
      400 ≤ status → status < 600 →
      ∃ e2, tryBlock (.response 500 (.error .jsonDecodeError)) = .error e2) ∧
    (∀ (status : Nat) (e : PyErr),
      (HttpOutcome.response 500 (.error .jsonDecodeError)) = .response status (.error e) →
      ∃ e2, tryBlock (.response 500 (.error .jsonDecodeError)) = .error e2)) :=
  ⟨rfl, rfl,
    claim_C1_amended _ _ _ "general" "" (.response 500 (.error .jsonDecodeError)) rfl rfl⟩

theorem string_empty_append (s : String) : "" ++ s = s := rfl

theorem procFiles_nil (rel : String) (st : WalkSt) : procFiles rel st [] = st := rfl

theorem procFiles_cons_stop (rel : String) (st : WalkSt) (name : String)
    (c : Option String) (r : List (String × Option String)) (h : 20 ≤ st.count) :
    procFiles rel st ((name, c) :: r) = st := by
  simp [procFiles, h]

theorem procFiles_cons_none (rel : String) (st : WalkSt) (name : String)
    (r : List (String × Option String)) (h : ¬ 20 ≤ st.count) :
    procFiles rel st ((name, none) :: r) = procFiles rel st r := by
  simp [procFiles, h]

theorem procFiles_cons_some (rel : String) (st : WalkSt) (name content : String)
    (r : List (String × Option String)) (h : ¬ 20 ≤ st.count) :
    procFiles rel st ((name, some content) :: r) =
      procFiles rel ⟨st.ctx ++ fileBlock (pyJoin rel name) content, st.count + 1⟩ r := by
  simp [procFiles, h]

theorem procFiles_stop (rel : String) (st : WalkSt)
    (l : List (String × Option String)) (h : 20 ≤ st.count) :
    procFiles rel st l = st := by
  cases l with
  | nil => rfl
  | cons f r =>
    obtain ⟨name, c⟩ := f
    exact procFiles_cons_stop rel st name c r h

theorem procFiles_count_le (rel : String) (l : List (String × Option String)) :
    ∀ st : WalkSt, st.count ≤ 20 → (procFiles rel st l).count ≤ 20 := by
  induction l with
  | nil =>
    intro st h
    exact h
  | cons f r ih =>
    intro st h
    obtain ⟨name, c⟩ := f
    by_cases h20 : 20 ≤ st.count
    · rw [procFiles_cons_stop rel st name c r h20]
      exact h
    · cases c with
      | none =>
        rw [procFiles_cons_none rel st name r h20]
        exact ih st h
      | some content =>
        rw [procFiles_cons_some rel st name content r h20]
        exact ih _ (by show st.count + 1 ≤ 20; omega)

theorem procFiles_filter (rel : String) (l : List (String × Option String)) :
    ∀ st : WalkSt,
      procFiles rel st (l.filter fun f => f.2.isSome) = procFiles rel st l := by
  induction l with
  | nil =>
    intro st
    rfl
  | cons f r ih =>
    intro st
    obtain ⟨name, c⟩ := f
    cases c with
    | none =>
      have hf : ((name, (none : Option String)) :: r).filter (fun f => f.2.isSome) =
          r.filter (fun f => f.2.isSome) := by
        simp [List.filter]
      rw [hf, ih st]
      by_cases h20 : 20 ≤ st.count
      · rw [procFiles_cons_stop rel st name none r h20, procFiles_stop rel st r h20]
      · rw [procFiles_cons_none rel st name r h20]
    | some content =>
      have hf : ((name, some content) :: r).filter (fun f => f.2.isSome) =
          (name, some content) :: r.filter (fun f => f.2.isSome) := by
        simp [List.filter]
      rw [hf]
      by_cases h20 : 20 ≤ st.count
      · rw [procFiles_cons_stop rel st name (some content) _ h20,
          procFiles_cons_stop rel st name (some content) r h20]
      · rw [procFiles_cons_some rel st name content _ h20,
          procFiles_cons_some rel st name content r h20]
        exact ih _

theorem blocksStr_append (a b : List (String × String)) :
    blocksStr (a ++ b) = blocksStr a ++ blocksStr b := by
  induction a with
  | nil => simp [blocksStr, string_empty_append]
  | cons x r ih => simp [blocksStr, ih, string_append_assoc]

theorem procFiles_blocks (rel : String) (l : List (String × Option String)) :
    ∀ st : WalkSt, ∃ bs : List (String × String),
      (procFiles rel st l).ctx = st.ctx ++ blocksStr bs ∧
      (procFiles rel st l).count = st.count + bs.length := by
  induction l with
  | nil =>
    intro st
    exact ⟨[], by simp [procFiles_nil, blocksStr, string_append_empty]⟩
  | cons f r ih =>
    intro st
    obtain ⟨name, c⟩ := f
    by_cases h20 : 20 ≤ st.count
    · refine ⟨[], ?_⟩
      rw [procFiles_cons_stop rel st name c r h20]
      simp [blocksStr, string_append_empty]
    · cases c with
      | none =>
        obtain ⟨bs, h1, h2⟩ := ih st
        refine ⟨bs, ?_, ?_⟩
        · rw [procFiles_cons_none rel st name r h20]
          exact h1
        · rw [procFiles_cons_none rel st name r h20]
          exact h2
      | some content =>
        obtain ⟨bs, h1, h2⟩ :=
          ih ⟨st.ctx ++ fileBlock (pyJoin rel name) content, st.count + 1⟩
        refine ⟨(pyJoin rel name, content) :: bs, ?_, ?_⟩
        · rw [procFiles_cons_some rel st name content r h20, h1]
          show st.ctx ++ fileBlock (pyJoin rel name) content ++ blocksStr bs =
            st.ctx ++ (fileBlock (pyJoin rel name) content ++ blocksStr bs)
          exact string_append_assoc _ _ _
        · rw [procFiles_cons_some rel st name content r h20, h2]
          show st.count + 1 + bs.length = st.count + (bs.length + 1)
          omega

theorem walkTree_node (rel : String) (st : WalkSt) (n : String)
    (files : List (String × Option String)) (subs : DirForest) :
    walkTree rel st (.node n files subs) =
      if 20 ≤ (procFiles rel st files).count then procFiles rel st files
      else walkForest rel (procFiles rel st files) subs := by
  rfl

theorem walkForest_nil (rel : String) (st : WalkSt) :
    walkForest rel st .nil = st := rfl

theorem walkForest_cons_skip (rel : String) (st : WalkSt) (d : DirTree)
    (ds : DirForest) (h : ignoreDirs.contains d.dname = true) :
    walkForest rel st (.cons d ds) = walkForest rel st ds := by
  show (if ignoreDirs.contains d.dname = true then walkForest rel st ds
    else walkForest rel (walkTree (pyJoin rel d.dname) st d) ds) = _
  rw [if_pos h]

theorem walkForest_cons_walk (rel : String) (st : WalkSt) (d : DirTree)
    (ds : DirForest) (h : ¬ ignoreDirs.contains d.dname = true) :
    walkForest rel st (.cons d ds) =
      walkForest rel (walkTree (pyJoin rel d.dname) st d) ds := by
  show (if ignoreDirs.contains d.dname = true then walkForest rel st ds
    else walkForest rel (walkTree (pyJoin rel d.dname) st d) ds) = _
  rw [if_neg h]

theorem deepPruneT_dname (d : DirTree) : (deepPruneT d).dname = d.dname := by
  cases d
  rfl

theorem dropUnreadT_dname (d : DirTree) : (dropUnreadT d).dname = d.dname := by
  cases d
  rfl

mutual

theorem walkTree_deepPrune (t : DirTree) : ∀ (rel : String) (st : WalkSt),
    walkTree rel st (deepPruneT t) = walkTree rel st t := by
  cases t with
  | node n files subs =>
    intro rel st
    show walkTree rel st (.node n files (deepPruneF subs)) = _
    rw [walkTree_node, walkTree_node]
    by_cases h20 : 20 ≤ (procFiles rel st files).count
    · rw [if_pos h20, if_pos h20]
    · rw [if_neg h20, if_neg h20]
      exact walkForest_deepPrune subs rel (procFiles rel st files)

theorem walkForest_deepPrune (ds : DirForest) : ∀ (rel : String) (st : WalkSt),
    walkForest rel st (deepPruneF ds) = walkForest rel st ds := by
  cases ds with
  | nil =>
    intro rel st
    rfl
  | cons d ds =>
    intro rel st
    by_cases hname : d.dname = "node_modules" ∨ d.dname = ".git"
    · have hig : ignoreDirs.contains d.dname = true := by
        rcases hname with h | h <;> rw [h] <;> rfl
      show walkForest rel st (if d.dname = "node_modules" ∨ d.dname = ".git"
        then deepPruneF ds else .cons (deepPruneT d) (deepPruneF ds)) = _
      rw [if_pos hname, walkForest_deepPrune ds rel st,
        walkForest_cons_skip rel st d ds hig]
    · show walkForest rel st (if d.dname = "node_modules" ∨ d.dname = ".git"
        then deepPruneF ds else .cons (deepPruneT d) (deepPruneF ds)) = _
      rw [if_neg hname]
      by_cases hig : ignoreDirs.contains d.dname = true
      · rw [walkForest_cons_skip rel st _ _ (by rw [deepPruneT_dname]; exact hig),
          walkForest_deepPrune ds rel st, walkForest_cons_skip rel st d ds hig]
      · rw [walkForest_cons_walk rel st _ _ (by rw [deepPruneT_dname]; exact hig),
          deepPruneT_dname, walkTree_deepPrune d (pyJoin rel d.dname) st,
          walkForest_deepPrune ds rel _, walkForest_cons_walk rel st d ds hig]

end

mutual

theorem walkTree_dropUnread (t : DirTree) : ∀ (rel : String) (st : WalkSt),
    walkTree rel st (dropUnreadT t) = walkTree rel st t := by
  cases t with
  | node n files subs =>
    intro rel st
    show walkTree rel st
      (.node n (files.filter fun f => f.2.isSome) (dropUnreadF subs)) = _
    rw [walkTree_node, walkTree_node, procFiles_filter rel files st]
    by_cases h20 : 20 ≤ (procFiles rel st files).count
    · rw [if_pos h20, if_pos h20]
    · rw [if_neg h20, if_neg h20]
      exact walkForest_dropUnread subs rel (procFiles rel st files)

theorem walkForest_dropUnread (ds : DirForest) : ∀ (rel : String) (st : WalkSt),
    walkForest rel st (dropUnreadF ds) = walkForest rel st ds := by
  cases ds with
  | nil =>
    intro rel st
    rfl
  | cons d ds =>
    intro rel st
    show walkForest rel st (.cons (dropUnreadT d) (dropUnreadF ds)) = _
    by_cases hig : ignoreDirs.contains d.dname = true
    · rw [walkForest_cons_skip rel st _ _ (by rw [dropUnreadT_dname]; exact hig),
        walkForest_dropUnread ds rel st, walkForest_cons_skip rel st d ds hig]
    · rw [walkForest_cons_walk rel st _ _ (by rw [dropUnreadT_dname]; exact hig),
        dropUnreadT_dname, walkTree_dropUnread d (pyJoin rel d.dname) st,
        walkForest_dropUnread ds rel _, walkForest_cons_walk rel st d ds hig]

end

mutual

theorem walkTree_count_le (t : DirTree) : ∀ (rel : String) (st : WalkSt),
    st.count ≤ 20 → (walkTree rel st t).count ≤ 20 := by
  cases t with
  | node n files subs =>
    intro rel st h
    have h1 : (procFiles rel st files).count ≤ 20 := procFiles_count_le rel files st h
    rw [walkTree_node]
    by_cases h20 : 20 ≤ (procFiles rel st files).count
    · rw [if_pos h20]
      exact h1
    · rw [if_neg h20]
      exact walkForest_count_le subs rel (procFiles rel st files) h1

theorem walkForest_count_le (ds : DirForest) : ∀ (rel : String) (st : WalkSt),
    st.count ≤ 20 → (walkForest rel st ds).count ≤ 20 := by
  cases ds with
  | nil =>
    intro rel st h
    exact h
  | cons d ds =>
    intro rel st h
    by_cases hig : ignoreDirs.contains d.dname = true
    · rw [walkForest_cons_skip rel st d ds hig]
      exact walkForest_count_le ds rel st h
    · rw [walkForest_cons_walk rel st d ds hig]
      exact walkForest_count_le ds rel _ (walkTree_count_le d (pyJoin rel d.dname) st h)

end

mutual

theorem walkTree_blocks (t : DirTree) : ∀ (rel : String) (st : WalkSt),
    ∃ bs : List (String × String),
      (walkTree rel st t).ctx = st.ctx ++ blocksStr bs ∧
      (walkTree rel st t).count = st.count + bs.length := by
  cases t with
  | node n files subs =>
    intro rel st
    obtain ⟨bs1, hc1, hn1⟩ := procFiles_blocks rel files st
    rw [walkTree_node]
    by_cases h20 : 20 ≤ (procFiles rel st files).count
    · rw [if_pos h20]
      exact ⟨bs1, hc1, hn1⟩
    · rw [if_neg h20]
      obtain ⟨bs2, hc2, hn2⟩ := walkForest_blocks subs rel (procFiles rel st files)
      refine ⟨bs1 ++ bs2, ?_, ?_⟩
      · rw [hc2, hc1, blocksStr_append, string_append_assoc]
      · rw [hn2, hn1, List.length_append]
        omega

theorem walkForest_blocks (ds : DirForest) : ∀ (rel : String) (st : WalkSt),
    ∃ bs : List (String × String),
      (walkForest rel st ds).ctx = st.ctx ++ blocksStr bs ∧
      (walkForest rel st ds).count = st.count + bs.length := by
  cases ds with
  | nil =>
    intro rel st
    exact ⟨[], by simp [walkForest_nil, blocksStr, string_append_empty]⟩
  | cons d ds =>
    intro rel st
    by_cases hig : ignoreDirs.contains d.dname = true
    · rw [walkForest_cons_skip rel st d ds hig]
      exact walkForest_blocks ds rel st
    · rw [walkForest_cons_walk rel st d ds hig]
      obtain ⟨bs1, h1, h2⟩ := walkTree_blocks d (pyJoin rel d.dname) st
      obtain ⟨bs2, h3, h4⟩ := walkForest_blocks ds rel (walkTree (pyJoin rel d.dname) st d)
      refine ⟨bs1 ++ bs2, ?_, ?_⟩
      · rw [h3, h1, blocksStr_append, string_append_assoc]
      · rw [h4, h2, List.length_append]
        omega

end

/-- Claim C4: the walk of `run_project_analysis` never descends into a
directory named `node_modules` or `.git` (deleting all such subtrees
leaves the result unchanged), skips unreadable files silently while
continuing (deleting them leaves the result unchanged), and the context
it builds from the initial state is a concatenation of at most 20
file blocks, each carrying a filename header. -/
theorem claim_C4 (t : DirTree) :
    (∀ (rel : String) (st : WalkSt), walkTree rel st (deepPruneT t) = walkTree rel st t) ∧
    (∀ (rel : String) (st : WalkSt), walkTree rel st (dropUnreadT t) = walkTree rel st t) ∧
    (walkTree "" ⟨"", 0⟩ t).count ≤ 20 ∧
    (∃ bs : List (String × String),
      (walkTree "" ⟨"", 0⟩ t).ctx = blocksStr bs ∧
      bs.length = (walkTree "" ⟨"", 0⟩ t).count) := by
  refine ⟨fun rel st => walkTree_deepPrune t rel st,
    fun rel st => walkTree_dropUnread t rel st,
    walkTree_count_le t "" ⟨"", 0⟩ (by show 0 ≤ 20; omega), ?_⟩
  obtain ⟨bs, h1, h2⟩ := walkTree_blocks t "" ⟨"", 0⟩
  refine ⟨bs, ?_, ?_⟩
  · rw [h1]
    exact string_empty_append _
  · rw [h2]
    show bs.length = 0 + bs.length
    omega

/-- Claim C2: a poll step never raises for any file content: the
timestamp is stored before the read and the parse, so a read error or a
malformed document is swallowed with the new mtime retained and no
dispatch; while the mtime stays the same nothing is retried; and a
later valid write with a new mtime is dispatched. -/
theorem claim_C2 (parse : String → Except PyErr JVal) (mode : String)
    (st : WatchState) (m : Int) (content : String) (e : PyErr)
    (hm : m ≠ st.lastMtime)
    (hc : pyStrip content ≠ "")
    (hp : parse content = .error e) :
    updateStep parse mode st ⟨.ok m, .ok content⟩ = ({ st with lastMtime := m }, .idle) ∧
    (∀ inp2 : PollInput, inp2.mtimeRes = .ok m →
      updateStep parse mode { st with lastMtime := m } inp2 =
        ({ st with lastMtime := m }, .idle)) ∧
    (∀ (m2 : Int) (c2 : String) (d : JVal), m2 ≠ m → pyStrip c2 ≠ "" →
      parse c2 = .ok d →
      updateStep parse mode { st with lastMtime := m } ⟨.ok m2, .ok c2⟩ =
        (⟨m2, some d⟩,
          if mode = "developer" then .project developerPlaceholder
          else .singleFile d mode analyzingPlaceholder)) ∧
    (∀ d : JVal,
      (if mode = "developer" then DispatchAction.project developerPlaceholder
        else DispatchAction.singleFile d mode analyzingPlaceholder) ≠ .idle) ∧
    (∀ e2 : PyErr, updateStep parse mode st ⟨.error e2, .ok content⟩ = (st, .idle)) ∧
    (∀ (e2 : PyErr) (m3 : Int), m3 ≠ st.lastMtime →
      updateStep parse mode st ⟨.ok m3, .error e2⟩ = ({ st with lastMtime := m3 }, .idle)) := by
  refine ⟨?_, ?_, ?_, ?_, ?_, ?_⟩
  · have hb : updateBody parse mode st ⟨.ok m, .ok content⟩ =
        .error (e, { st with lastMtime := m }) := by
      simp [updateBody, hm, hc, hp]
    simp [updateStep, hb]
  · intro inp2 h2
    obtain ⟨mr, cr⟩ := inp2
    simp only at h2
    subst h2
    have hb : updateBody parse mode { st with lastMtime := m } ⟨.ok m, cr⟩ =
        .ok ({ st with lastMtime := m }, .idle) := by
      simp [updateBody]
    simp [updateStep, hb]
  · intro m2 c2 d hm2 hc2 hp2
    have hb : updateBody parse mode { st with lastMtime := m } ⟨.ok m2, .ok c2⟩ =
        .ok (⟨m2, some d⟩,
          if mode = "developer" then .project developerPlaceholder
          else .singleFile d mode analyzingPlaceholder) := by
      by_cases hmode : mode = "developer" <;>
        simp [updateBody, hm2, hc2, hp2, hmode]
    simp [updateStep, hb]
  · intro d
    by_cases hmode : mode = "developer" <;> simp [hmode]
  · intro e2
    simp [updateStep, updateBody]
  · intro e2 m3 h3
    simp [updateStep, updateBody, h3]

/-- Witness for claim C2 at a concrete state, mtime and content. -/
theorem claim_C2_witness :
    ((5 : Int) ≠ (⟨0, none⟩ : WatchState).lastMtime) ∧
    pyStrip "bad" ≠ "" ∧
    parseSample "bad" = .error .jsonDecodeError ∧
    updateStep parseSample "general" ⟨0, none⟩ ⟨.ok 5, .ok "bad"⟩ =
      ({ lastMtime := 5, lastErrorData := none }, .idle) :=
  ⟨by decide, by decide, rfl,
    (claim_C2 parseSample "general" ⟨0, none⟩ 5 "bad" .jsonDecodeError
      (by decide) (by decide) rfl).1⟩

/-- Claim C9: a poll step dispatches only when the mtime differs from
the stored one and the content is non-empty after stripping: an
unchanged mtime (including a byte-identical rewrite preserving the
mtime) is a complete no-op, a whitespace-only write with a new mtime
dispatches nothing and shows nothing, and any dispatch implies a new
mtime, a successful read of non-whitespace content and a successful
parse. -/
theorem claim_C9 (parse : String → Except PyErr JVal) (mode : String)
    (st : WatchState) (cr : Except PyErr String) (m : Int) (content : String)
    (inp : PollInput) :
    updateStep parse mode st ⟨.ok st.lastMtime, cr⟩ = (st, .idle) ∧
    (m ≠ st.lastMtime → pyStrip content = "" →
      updateStep parse mode st ⟨.ok m, .ok content⟩ = ({ st with lastMtime := m }, .idle)) ∧
    (∀ (st2 : WatchState) (a : DispatchAction),
      updateStep parse mode st inp = (st2, a) → a ≠ .idle →
      ∃ (m2 : Int) (c2 : String) (d : JVal),
        inp.mtimeRes = .ok m2 ∧ m2 ≠ st.lastMtime ∧ inp.contentRes = .ok c2 ∧
        pyStrip c2 ≠ "" ∧ parse c2 = .ok d) := by
  refine ⟨?_, ?_, ?_⟩
  · simp [updateStep, updateBody]
  · intro h1 h2
    simp [updateStep, updateBody, h1, h2]
  · obtain ⟨mr, cr2⟩ := inp
    intro st2 a heq hne
    cases mr with
    | error e1 =>
      simp [updateStep, updateBody] at heq
      exact absurd heq.2.symm hne
    | ok m2 =>
      by_cases hm2 : m2 = st.lastMtime
      · simp [updateStep, updateBody, hm2] at heq
        exact absurd heq.2.symm hne
      · cases cr2 with
        | error e1 =>
          simp [updateStep, updateBody, hm2] at heq
          exact absurd heq.2.symm hne
        | ok c2 =>
          by_cases hstrip : pyStrip c2 = ""
          · simp [updateStep, updateBody, hm2, hstrip] at heq
            exact absurd heq.2.symm hne
          · cases hp2 : parse c2 with
            | error e1 =>
              simp [updateStep, updateBody, hm2, hstrip, hp2] at heq
              exact absurd heq.2.symm hne
            | ok d =>
              exact ⟨m2, c2, d, rfl, hm2, rfl, hstrip, hp2⟩

/-- Witness for claim C9 at a concrete state and inputs. -/
theorem claim_C9_witness :
    updateStep parseSample "general" ⟨0, none⟩ ⟨.ok (0 : Int), .ok "ok"⟩ =
      (⟨0, none⟩, .idle) ∧
    ((7 : Int) ≠ (⟨0, none⟩ : WatchState).lastMtime) ∧
    pyStrip " \n " = "" ∧
    updateStep parseSample "general" ⟨0, none⟩ ⟨.ok 7, .ok " \n "⟩ =
      ({ lastMtime := 7, lastErrorData := none }, .idle) :=
  ⟨(claim_C9 parseSample "general" ⟨0, none⟩ (.ok "ok") 7 " \n "
      ⟨.ok 7, .ok " \n "⟩).1,
    by decide, by decide,
    (claim_C9 parseSample "general" ⟨0, none⟩ (.ok "ok") 7 " \n "
      ⟨.ok 7, .ok " \n "⟩).2.1 (by decide) (by decide)⟩

/-- Claim C10: in developer mode, if the stored last error report is
`None` or lacks a truthy `file_path` value, `run_project_analysis`
shows the no-context message and returns: the outcome carries neither a
walk result nor an API call, and it does not depend on the directory
tree or the HTTP world. -/
theorem claim_C10 (last : Option JVal) (root : DirTree) (out : HttpOutcome)
    (h : last = none ∨ ∃ fs, last = some (.obj fs) ∧
        truthy ((alookup fs "file_path").getD .null) = false) :
    runProjectAnalysis last root out = .ok (.noContext noContextMsg) := by
  rcases h with h | ⟨fs, rfl, hfp⟩
  · subst h
    rfl
  · unfold runProjectAnalysis
    show (if truthy (JVal.obj fs) = false
        then Except.ok (ProjOutcome.noContext noContextMsg)
        else _) = _
    by_cases ht : truthy (JVal.obj fs) = false
    · rw [if_pos ht]
    · rw [if_neg ht]
      show (if truthy ((alookup fs "file_path").getD .null) = false
          then Except.ok (ProjOutcome.noContext noContextMsg)
          else _) = _
      rw [if_pos hfp]

/-- Witness for claim C10: a report whose `file_path` is the empty
string (falsy) yields the no-context outcome. -/
theorem claim_C10_witness :
    (some (JVal.obj [("file_path", JVal.str ""), ("stderr", JVal.str "E")]) =
        (none : Option JVal) ∨
      ∃ fs, some (JVal.obj [("file_path", JVal.str ""), ("stderr", JVal.str "E")]) =
          some (JVal.obj fs) ∧
        truthy ((alookup fs "file_path").getD .null) = false) ∧
    runProjectAnalysis (some (JVal.obj [("file_path", JVal.str ""), ("stderr", JVal.str "E")]))
        (.node "proj" [] .nil) (.raises (.connectionError "down")) =
      .ok (.noContext noContextMsg) :=
  ⟨Or.inr ⟨_, rfl, rfl⟩,
    claim_C10 _ (.node "proj" [] .nil) (.raises (.connectionError "down"))
      (Or.inr ⟨_, rfl, rfl⟩)⟩

end PersonalDebugger
